import Mathlib

/-!
Verification development for the NEO worker hot-session manager
(`src/worker.ts`).  The TypeScript source is shallowly embedded:
pure functions become Lean functions, the session store becomes an
explicit association list threaded through the operations, and every
interaction with the external browser page (click, fill, navigate,
evaluate) is resolved by an explicit environment record that fixes the
outcome of each primitive.  JavaScript truthiness, `String.includes`,
`Array.includes`, `Map` iteration order and the two phone / one email
regular expressions are all modelled explicitly.
-/

namespace NeoWorker

/- ───────────────────── string helpers (JS semantics) ───────────────────── -/

/-- `toLowerCase` restricted to the character ranges the program's
vocabularies actually use: ASCII `A`-`Z` and the basic Cyrillic capitals
`А`-`Я` (U+0410–U+042F), each mapped 32 code points up, everything else
unchanged. -/
def jsCharToLower (c : Char) : Char :=
  if 0x41 ≤ c.toNat ∧ c.toNat ≤ 0x5A then Char.ofNat (c.toNat + 32)
  else if 0x410 ≤ c.toNat ∧ c.toNat ≤ 0x42F then Char.ofNat (c.toNat + 32)
  else c

/-- `s.toLowerCase()`. -/
def jsToLower (s : String) : String := String.mk (s.data.map jsCharToLower)

/-- `needle` is a prefix of `hay` (character lists). -/
def listPre : List Char → List Char → Bool
  | [], _ => true
  | _ :: _, [] => false
  | a :: as1, b :: bs1 => a == b && listPre as1 bs1

/-- Helper for `strContains`: does `needle` occur in the given suffix list? -/
def containsSubAux (needle : List Char) : List Char → Bool
  | [] => listPre needle []
  | c :: rest => listPre needle (c :: rest) || containsSubAux needle rest

/-- JS `hay.includes(needle)` (substring containment). -/
def strContains (hay needle : String) : Bool := containsSubAux needle.data hay.data

/-- JS truthiness of an optional string (`undefined` and `""` are falsy). -/
def jsTruthyS : Option String → Bool
  | none => false
  | some s => !(s == "")

/-- JS truthiness of an optional number (`undefined` and `0` are falsy). -/
def jsTruthyN : Option Nat → Bool
  | none => false
  | some n => !(n == 0)

/- ───────────────────────────── data model ──────────────────────────────── -/

/-- `SiteMapButton.action_type` in the source. -/
inductive ActionType
  | booking | contact | navigation | submit | other
deriving DecidableEq

/-- `SiteMapField.type` in the source. -/
inductive FieldType
  | date | number | text | select
deriving DecidableEq

structure SiteMapButton where
  text : String
  selector : String
  keywords : List String
  action_type : ActionType
deriving DecidableEq

structure SiteMapField where
  name : String
  selector : String
  type : FieldType
  keywords : List String
deriving DecidableEq

structure SiteMapForm where
  selector : String
  fields : List SiteMapField
  submit_button : String
deriving DecidableEq

structure PriceEntry where
  text : String
  context : String
deriving DecidableEq

structure SiteMap where
  site_id : String
  url : String
  buttons : List SiteMapButton
  forms : List SiteMapForm
  prices : List PriceEntry
deriving DecidableEq

/-- `ExecuteRequest.data` in the source (`check_in? check_out? guests?`). -/
structure ExecData where
  check_in : Option String
  check_out : Option String
  guests : Option Nat
deriving DecidableEq

structure ExecuteRequest where
  site_id : String
  keywords : List String
  data : Option ExecData
deriving DecidableEq

/- ─────────────────────── keyword pattern tables ────────────────────────── -/

def PATTERNS_booking : List String :=
  ["резерв", "book", "запази", "наличност", "свободн", "availability", "reserve", "нощувк"]

def PATTERNS_check_in : List String :=
  ["от", "check-in", "checkin", "настаняване", "пристигане", "arrival", "from", "start"]

def PATTERNS_check_out : List String :=
  ["до", "check-out", "checkout", "напускане", "заминаване", "departure", "to", "end"]

def PATTERNS_guests : List String :=
  ["човека", "души", "гости", "guests", "adults", "persons", "двама", "трима", "възрастни", "брой"]

def PATTERNS_prices : List String :=
  ["цена", "цени", "price", "струва", "колко", "cost", "rate", "тариф"]

def PATTERNS_contact : List String :=
  ["контакт", "contact", "свържи", "обади", "телефон", "имейл", "email"]

def PATTERNS_search : List String :=
  ["търси", "search", "find", "провери", "check", "покажи", "show"]

def PATTERNS_rooms : List String :=
  ["стая", "стаи", "room", "rooms", "апартамент", "suite", "настаняване"]

/- ───────────────────────────── action matcher ──────────────────────────── -/

/-- The matcher's output: a tagged variant as in the source object literal
`{type, form?, selector?, buttonText?, url?, data?}`. -/
inductive ActionDescriptor
  | fill_form (form : SiteMapForm) (data : Option ExecData)
  | click (selector : String) (buttonText : String)
  | return_prices
  | return_contact
  | navigate (url : String)
  | observe
deriving DecidableEq

/-- `data?.check_in || data?.check_out` (JS truthiness). -/
def hasDatesFn : Option ExecData → Bool
  | none => false
  | some d => jsTruthyS d.check_in || jsTruthyS d.check_out

/-- Predicate of `siteMap.forms.find` in the booking rule:
a field is date-typed or its declared keyword list contains
(exact `Array.includes` membership) a check-in or check-out pattern. -/
def dateFormPred (f : SiteMapForm) : Bool :=
  f.fields.any (fun field =>
    field.type == FieldType.date
    || PATTERNS_check_in.any (fun k => field.keywords.contains k)
    || PATTERNS_check_out.any (fun k => field.keywords.contains k))

/-- Predicate of `siteMap.buttons.find` in the booking rule. -/
def bookingBtnPred (b : SiteMapButton) : Bool :=
  b.action_type == ActionType.booking
  || PATTERNS_booking.any (fun p => strContains (jsToLower b.text) p)

/-- Rule 6: first button whose own lower-cased keywords contain one of the
request keywords (lower-cased); otherwise the default `observe`. -/
def matchRule6 (keywords : List String) (siteMap : SiteMap) : ActionDescriptor :=
  match siteMap.buttons.find? (fun btn =>
      keywords.any (fun kw => (btn.keywords.map jsToLower).contains (jsToLower kw))) with
  | some btn => .click btn.selector btn.text
  | none => .observe

/-- Rule 5: search/check keywords prefer a submit-tagged or keyword-matching
button; on no match fall through to rule 6. -/
def matchRule5 (keywords : List String) (joined : String) (siteMap : SiteMap) :
    ActionDescriptor :=
  if PATTERNS_search.any (fun p => strContains joined p) then
    match siteMap.buttons.find? (fun b =>
        b.action_type == ActionType.submit
        || PATTERNS_search.any (fun p => strContains (jsToLower b.text) p)) with
    | some b => .click b.selector b.text
    | none => matchRule6 keywords siteMap
  else matchRule6 keywords siteMap

/-- Rule 4: room keywords prefer a keyword-matching button; no terminal
fallback, falls through to rule 5. -/
def matchRule4 (keywords : List String) (joined : String) (siteMap : SiteMap) :
    ActionDescriptor :=
  if PATTERNS_rooms.any (fun p => strContains joined p) then
    match siteMap.buttons.find? (fun b =>
        PATTERNS_rooms.any (fun p => strContains (jsToLower b.text) p)) with
    | some b => .click b.selector b.text
    | none => matchRule5 keywords joined siteMap
  else matchRule5 keywords joined siteMap

/-- Rule 3: contact keywords prefer a contact-tagged or keyword-matching
button, else terminal `return_contact`. -/
def matchRule3 (keywords : List String) (joined : String) (siteMap : SiteMap) :
    ActionDescriptor :=
  if PATTERNS_contact.any (fun p => strContains joined p) then
    match siteMap.buttons.find? (fun b =>
        b.action_type == ActionType.contact
        || PATTERNS_contact.any (fun p => strContains (jsToLower b.text) p)) with
    | some b => .click b.selector b.text
    | none => .return_contact
  else matchRule4 keywords joined siteMap

/-- Rule 2: price keywords with a non-empty price list yield `return_prices`;
otherwise (also when the price list is empty) fall through to rule 3. -/
def matchRule2 (keywords : List String) (joined : String) (siteMap : SiteMap) :
    ActionDescriptor :=
  if PATTERNS_prices.any (fun p => strContains joined p) && !(siteMap.prices == []) then
    .return_prices
  else matchRule3 keywords joined siteMap

/-- `HotSessionManager.matchAction`: the fixed-priority cascade.  Rule 1
(booking) prefers a date-bearing form (`fill_form`), else a booking button
(`click`), else falls through to rule 2. -/
def matchAction (keywords : List String) (siteMap : SiteMap) (data : Option ExecData) :
    ActionDescriptor :=
  let joined := jsToLower (String.intercalate " " keywords)
  let hasBookingKeyword := PATTERNS_booking.any (fun p => strContains joined p)
  if hasBookingKeyword || hasDatesFn data then
    match siteMap.forms.find? dateFormPred with
    | some form => .fill_form form data
    | none =>
      match siteMap.buttons.find? bookingBtnPred with
      | some b => .click b.selector b.text
      | none => matchRule2 keywords joined siteMap
  else matchRule2 keywords joined siteMap

/- ─────────────────────────── price formatting ──────────────────────────── -/

/-- `HotSessionManager.formatPrices`. -/
def formatPrices (prices : List PriceEntry) : String :=
  if prices == [] then "Не намерих цени на сайта"
  else
    "Цени: " ++ String.intercalate "; "
      ((prices.take 5).map (fun p =>
        if !(p.context == "") then p.context ++ ": " ++ p.text else p.text))

/- ───────────────────────────── form filling ────────────────────────────── -/

/-- Outcomes of the page primitives used by `fillForm`: whether `page.$(sel)`
finds an element, whether `page.fill`/`page.selectOption` on `sel` succeeds,
and whether the submit `page.click` succeeds. -/
structure FillEnv where
  elemFound : String → Bool
  fillOk : String → Bool
  submitClickOk : String → Bool

/-- Value resolution for one field (the three guarded branches over the
lower-cased declared keywords, with JS truthiness of the datum). -/
def resolveValue (data : ExecData) (field : SiteMapField) : Option String :=
  if PATTERNS_check_in.any (fun k => (field.keywords.map jsToLower).contains k)
      && jsTruthyS data.check_in then
    some (data.check_in.getD "")
  else if PATTERNS_check_out.any (fun k => (field.keywords.map jsToLower).contains k)
      && jsTruthyS data.check_out then
    some (data.check_out.getD "")
  else if PATTERNS_guests.any (fun k => (field.keywords.map jsToLower).contains k)
      && jsTruthyN data.guests then
    some (toString (data.guests.getD 0))
  else none

/-- The three selector strategies, with `.filter(Boolean)` dropping empties. -/
def fieldSelectors (field : SiteMapField) : List String :=
  ([field.selector, "[name=\"" ++ field.name ++ "\"]", "#" ++ field.name]).filter
    (fun s => !(s == ""))

/-- `field.name.replace(/[-_]/g, " ")`. -/
def fieldLabel (field : SiteMapField) : String :=
  String.mk (field.name.data.map (fun c => if c == '-' || c == '_' then ' ' else c))

/-- One field's selector loop: scan the strategies in order; a found element
is attempted (the attempt is recorded); a successful fill stops the scan, a
throwing fill is swallowed and the next selector is tried.  Returns whether
the field was filled plus the list of `(selector, value)` fill attempts. -/
def tryFillAux (env : FillEnv) (v : String) : List String → Bool × List (String × String)
  | [] => (false, [])
  | sel :: rest =>
    if env.elemFound sel then
      if env.fillOk sel then (true, [(sel, v)])
      else
        let r := tryFillAux env v rest
        (r.1, (sel, v) :: r.2)
    else tryFillAux env v rest

/-- The field loop of `fillForm`: produces the `actions` summary entries (in
field order) and the instrumented list of all fill attempts. -/
def fillFormLoop (env : FillEnv) (data : ExecData) :
    List SiteMapField → List String × List (String × String)
  | [] => ([], [])
  | field :: rest =>
    let head : List String × List (String × String) :=
      match resolveValue data field with
      | none => ([], [])
      | some v =>
        let r := tryFillAux env v (fieldSelectors field)
        (if r.1 then [fieldLabel field ++ ": " ++ v] else [], r.2)
    let tail := fillFormLoop env data rest
    (head.1 ++ tail.1, head.2 ++ tail.2)

/-- Result of `fillForm`, instrumented with the attempted fill operations and
whether the submit control was activated (the page snapshot the source
attaches is added at the `execute` level). -/
structure FillOutcome where
  message : String
  attempts : List (String × String)
  submitted : Bool
deriving DecidableEq

/-- `HotSessionManager.fillForm`. -/
def fillForm (env : FillEnv) (form : SiteMapForm) (data : ExecData) : FillOutcome :=
  let r := fillFormLoop env data form.fields
  let submitted :=
    !(form.submit_button == "") && !(r.1 == []) && env.submitClickOk form.submit_button
  let acts := if submitted then r.1 ++ ["Търсене"] else r.1
  { message :=
      if !(acts == []) then "Попълних: " ++ String.intercalate ", " acts
      else "Не успях да попълня формата"
    attempts := r.2
    submitted := submitted }

/- ──────────────────────────── button clicking ──────────────────────────── -/

/-- Outcomes of the page primitives used by `clickButton`: whether
`page.click(sel)` succeeds for a given selector string, and whether the
settle `page.waitForTimeout` after strategy `i` succeeds. -/
structure ClickEnv where
  clickOk : String → Bool
  waitOk : Nat → Bool

/-- Result of one strategy thunk: it threw, or it completed (possibly
without performing any click — the `buttonText && …` short-circuit). -/
inductive StratResult
  | threw
  | completed (didClick : Bool)
deriving DecidableEq

/-- Strategy `i` of the source's `strategies` array.  Strategies 1–3 are
`async () => buttonText && page.click(…)`: when `buttonText` is falsy the
thunk resolves without clicking. -/
def stratRun (env : ClickEnv) (selector : String) (buttonText : Option String) :
    Nat → StratResult
  | 0 => if env.clickOk selector then .completed true else .threw
  | 1 =>
    if jsTruthyS buttonText then
      if env.clickOk ("text=\"" ++ buttonText.getD "" ++ "\"") then .completed true
      else .threw
    else .completed false
  | 2 =>
    if jsTruthyS buttonText then
      if env.clickOk ("button:has-text(\"" ++ buttonText.getD "" ++ "\")") then .completed true
      else .threw
    else .completed false
  | 3 =>
    if jsTruthyS buttonText then
      if env.clickOk ("a:has-text(\"" ++ buttonText.getD "" ++ "\")") then .completed true
      else .threw
    else .completed false
  | _ => .threw

/-- Result of `clickButton`, instrumented with whether any `page.click`
actually succeeded and whether a snapshot was taken (success path). -/
structure ClickOutcome where
  message : String
  didClick : Bool
  tookSnapshot : Bool
deriving DecidableEq

/-- The strategy loop: a thrown strategy (or a thrown settle wait) is
swallowed and the next strategy is tried; the first strategy that completes
and settles returns the success message. -/
def clickButtonAux (env : ClickEnv) (selector : String) (buttonText : Option String) :
    List Nat → Bool → ClickOutcome
  | [], anyClick => { message := "Не успях да кликна", didClick := anyClick, tookSnapshot := false }
  | i :: rest, anyClick =>
    match stratRun env selector buttonText i with
    | .threw => clickButtonAux env selector buttonText rest anyClick
    | .completed dc =>
      if env.waitOk i then
        { message :=
            if jsTruthyS buttonText then "Кликнах \"" ++ buttonText.getD "" ++ "\""
            else "Кликнах"
          didClick := anyClick || dc
          tookSnapshot := true }
      else clickButtonAux env selector buttonText rest (anyClick || dc)

/-- `HotSessionManager.clickButton`. -/
def clickButton (env : ClickEnv) (selector : String) (buttonText : Option String) :
    ClickOutcome :=
  clickButtonAux env selector buttonText [0, 1, 2, 3] false

/- ──────────────────────── contact extraction ───────────────────────────── -/

/-- ASCII digit. -/
def isDigitC (c : Char) : Bool := '0' ≤ c && c ≤ '9'

/-- A `[\s-]` character (whitespace as used by the page texts, or dash). -/
def isSepC (c : Char) : Bool :=
  c == ' ' || c == '\t' || c == '\n' || c == '\r' ||
  c == Char.ofNat 0x0b || c == Char.ofNat 0x0c || c == Char.ofNat 0xa0 || c == '-'

/-- JS `\w`: ASCII letter, digit or underscore. -/
def isWordC (c : Char) : Bool :=
  ('a' ≤ c && c ≤ 'z') || ('A' ≤ c && c ≤ 'Z') || isDigitC c || c == '_'

/-- A `[\w.-]` character (email local/domain class). -/
def isEmailC (c : Char) : Bool := isWordC c || c == '.' || c == '-'

/-- Match a literal character sequence, returning the rest. -/
def matchLit : List Char → List Char → Option (List Char)
  | [], s => some s
  | _ :: _, [] => none
  | a :: as1, b :: bs1 => if a == b then matchLit as1 bs1 else none

/-- Match exactly `n` digits. -/
def matchDigits : Nat → List Char → Option (List Char)
  | 0, s => some s
  | n + 1, [] => (fun _ => none) n
  | n + 1, c :: rest => if isDigitC c then matchDigits n rest else none

/-- `[\s-]?` with backtracking: greedily consume a separator, falling back
to consuming nothing if the continuation fails. -/
def optSep (s : List Char) (k : List Char → Option (List Char)) : Option (List Char) :=
  match s with
  | [] => k []
  | c :: rest => if isSepC c then (k rest) <|> k s else k s

/-- `\d{2,3}` with backtracking (greedy: three digits first). -/
def digits23 (s : List Char) (k : List Char → Option (List Char)) : Option (List Char) :=
  ((matchDigits 3 s).bind k) <|> ((matchDigits 2 s).bind k)

/-- Tail of the permissive phone pattern after the `(\+359|0)` prefix:
`[\s-]?\d{2,3}[\s-]?\d{3}[\s-]?\d{3}`. -/
def permTail (s : List Char) : Option (List Char) :=
  optSep s (fun s1 =>
    digits23 s1 (fun s2 =>
      optSep s2 (fun s3 =>
        (matchDigits 3 s3).bind (fun s4 =>
          optSep s4 (fun s5 => matchDigits 3 s5)))))

/-- The permissive phone pattern `(\+359|0)[\s-]?\d{2,3}[\s-]?\d{3}[\s-]?\d{3}`
anchored at the start of `s` (alternation order: `+359` before `0`). -/
def permAt (s : List Char) : Option (List Char) :=
  ((matchLit ['+', '3', '5', '9'] s).bind permTail) <|> ((matchLit ['0'] s).bind permTail)

/-- The strict phone pattern `(\+359|0)\d{9}` anchored at the start. -/
def strictAt (s : List Char) : Option (List Char) :=
  ((matchLit ['+', '3', '5', '9'] s).bind (matchDigits 9))
  <|> ((matchLit ['0'] s).bind (matchDigits 9))

/-- `p`-class `+` (one or more) with greedy backtracking. -/
def many1G (p : Char → Bool) : List Char → (List Char → Option (List Char)) → Option (List Char)
  | [], _ => none
  | c :: rest, k => if p c then (many1G p rest k) <|> k rest else none

/-- The email pattern `[\w.-]+@[\w.-]+\.\w+` anchored at the start. -/
def emailAt (s : List Char) : Option (List Char) :=
  many1G isEmailC s (fun s1 =>
    (matchLit ['@'] s1).bind (fun s2 =>
      many1G isEmailC s2 (fun s3 =>
        (matchLit ['.'] s3).bind (fun s4 =>
          many1G isWordC s4 some))))

/-- The text matched by `m` at the start of `s`, if any. -/
def matchedAt (m : List Char → Option (List Char)) (s : List Char) : Option (List Char) :=
  (m s).map (fun rest => s.take (s.length - rest.length))

/-- First (leftmost) match of anchored matcher `m` in the text. -/
def firstMatchAux (m : List Char → Option (List Char)) : List Char → Option (List Char)
  | [] => matchedAt m []
  | c :: rest => (matchedAt m (c :: rest)) <|> firstMatchAux m rest

/-- First match of the permissive phone pattern in the page text. -/
def findPhonePermissive (t : String) : Option String :=
  (firstMatchAux permAt t.data).map String.mk

/-- First match of the strict phone pattern in the page text. -/
def findPhoneStrict (t : String) : Option String :=
  (firstMatchAux strictAt t.data).map String.mk

/-- The `for (const pattern of phonePatterns)` loop: the permissive pattern
is consulted first, the strict one only when it found nothing. -/
def phoneOf (t : String) : Option String :=
  match findPhonePermissive t with
  | some p => some p
  | none => findPhoneStrict t

/-- First match of the email pattern in the page text. -/
def findEmail (t : String) : Option String :=
  (firstMatchAux emailAt t.data).map String.mk

/-- `parts.join(". ")`. -/
def joinDot : List String → String
  | [] => ""
  | [a] => a
  | a :: b :: rest => a ++ ". " ++ joinDot (b :: rest)

/-- `HotSessionManager.getContactInfo`'s message assembly over the page's
visible text (phone part first, joined by `". "`). -/
def getContactMessage (text : String) : String :=
  let parts : List String :=
    (match phoneOf text with
     | some p => ["Телефон: " ++ p]
     | none => [])
    ++ (match findEmail text with
        | some e => ["Email: " ++ e]
        | none => [])
  if !(parts == []) then joinDot parts
  else "Не намерих контактна информация на тази страница"

/- ─────────────────────────── observation model ─────────────────────────── -/

/-- The snapshot produced by `quickObserve`'s page script. -/
structure ObserveData where
  url : String
  title : String
  prices : List String
  hasAvailability : Bool
  noAvailability : Bool
  textSnippet : String
deriving DecidableEq

/-- The object `quickObserve` returns from its catch branch
(`{url:"", title:"", prices:[]}`; the absent flags are falsy). -/
def defaultObserve : ObserveData := ⟨"", "", [], false, false, ""⟩

/-- `observeCurrentState`'s message assembly. -/
def observeMessage (o : ObserveData) : String :=
  let m1 := "Страница: \"" ++ o.title ++ "\""
  let m2 := if o.hasAvailability then m1 ++ ". Виждам информация за наличност." else m1
  if !(o.prices == []) then m2 ++ ". Цени: " ++ String.intercalate ", " (o.prices.take 3)
  else m2

/- ─────────────────────────── session store ─────────────────────────────── -/

/-- One `HotSession` (the browser `page`/`context` pair is modelled by the
allocation id of the page). -/
structure SessionM where
  pageId : Nat
  siteMap : SiteMap
  lastActivity : Nat
  currentUrl : String
deriving DecidableEq

/-- The manager's state: the `sessions` map is an insertion-ordered
association list (JS `Map` iteration order), `nextPageId` models fresh
page allocation, `isReady` the started browser. -/
structure ManagerState where
  sessions : List (String × SessionM)
  nextPageId : Nat
  isReady : Bool
deriving DecidableEq

/-- The keys of a JS `Map` are pairwise distinct; all states reachable from
`initState` satisfy this. -/
def UniqueKeys (l : List (String × SessionM)) : Prop := (l.map Prod.fst).Nodup

instance (l : List (String × SessionM)) : Decidable (UniqueKeys l) := by
  unfold UniqueKeys; infer_instance

def MAX_SESSIONS : Nat := 50

def SESSION_TIMEOUT : Nat := 30 * 60 * 1000

/-- The state after `start()`: empty store, browser ready. -/
def initState : ManagerState := { sessions := [], nextPageId := 0, isReady := true }

/-- `this.sessions.get(id)`. -/
def lookupSession (s : ManagerState) (id : String) : Option SessionM :=
  (s.sessions.find? (fun p => p.1 == id)).map Prod.snd

/-- `Map.set`: replace in place when the key exists, else append. -/
def mapSet (l : List (String × SessionM)) (k : String) (v : SessionM) :
    List (String × SessionM) :=
  if l.any (fun p => p.1 == k) then l.map (fun p => if p.1 == k then (k, v) else p)
  else l ++ [(k, v)]

/-- `HotSessionManager.closeSession`: best-effort close of page and context
(errors swallowed, not modelled further) and `Map.delete`. -/
def closeSession (s : ManagerState) (id : String) : ManagerState :=
  { s with sessions := s.sessions.eraseP (fun p => p.1 == id) }

/-- One step of the `evictOldestSession` scan: keep the entry with strictly
smaller `lastActivity` (ties keep the earlier entry). -/
def oldStep (acc : Option (String × Nat)) (p : String × SessionM) : Option (String × Nat) :=
  match acc with
  | none => some (p.1, p.2.lastActivity)
  | some (oid, ot) =>
    if p.2.lastActivity < ot then some (p.1, p.2.lastActivity) else some (oid, ot)

/-- The `evictOldestSession` scan: forward iteration over the store. -/
def oldestEntry (l : List (String × SessionM)) : Option (String × Nat) :=
  l.foldl oldStep none

/-- `HotSessionManager.evictOldestSession`. -/
def evictOldest (s : ManagerState) : ManagerState :=
  match oldestEntry s.sessions with
  | none => s
  | some (oid, _) => closeSession s oid

/-- `if (!url.startsWith("http")) url = "https://" + url`. -/
def normalizeUrl (url : String) : String :=
  if listPre "http".data url.data then url else "https://" ++ url

/-- Outcomes of the driver primitives used by `prepareSession`: context and
page creation, and the navigation plus settle wait, plus the `Date.now()`
value stored as `lastActivity`. -/
structure PrepEnv where
  ctxOk : Bool
  navOk : Bool
  now : Nat
deriving DecidableEq

/-- The creation half of `prepareSession` (context, page, navigation, store):
run after the close/evict half against state `s2`. -/
def prepInsert (s2 : ManagerState) (id : String) (siteMap : SiteMap) (env : PrepEnv) :
    Bool × ManagerState :=
  if !env.ctxOk then (false, s2)
  else
    let pid := s2.nextPageId
    let s3 := { s2 with nextPageId := pid + 1 }
    if !env.navOk then (false, s3)
    else
      (true,
       { s3 with
           sessions := mapSet s3.sessions id
             { pageId := pid, siteMap := siteMap, lastActivity := env.now
               currentUrl := normalizeUrl siteMap.url } })

/-- `HotSessionManager.prepareSession`: close any old session for the id,
evict the oldest entry when at capacity, then create a fresh context/page
and navigate; any failure returns `false` with no insertion. -/
def prepareSession (s : ManagerState) (id : String) (siteMap : SiteMap) (env : PrepEnv) :
    Bool × ManagerState :=
  if !s.isReady then (false, s)
  else
    let s1 := closeSession s id
    let s2 := if MAX_SESSIONS ≤ s1.sessions.length then evictOldest s1 else s1
    prepInsert s2 id siteMap env

/-- `cleanupSessions`: drop every session idle beyond the timeout. -/
def cleanupSessions (s : ManagerState) (now : Nat) : ManagerState :=
  { s with
      sessions := s.sessions.filter (fun p => !(SESSION_TIMEOUT < now - p.2.lastActivity)) }

/- ─────────────────────────────── execute ───────────────────────────────── -/

/-- The heterogeneous `observation` payload of an `execute` result. -/
inductive ObsPayload
  | snap (o : ObserveData)
  | priceList (l : List PriceEntry)
deriving DecidableEq

/-- Result of `execute`, instrumented with the id of the page the chosen
executor was run against (`none` when no page primitive was targeted). -/
structure ExecResult where
  success : Bool
  message : String
  observation : Option ObsPayload
  usedPageId : Option Nat
deriving DecidableEq

/-- Outcomes of the page primitives used by `execute` and its executors:
page liveness (the `page.evaluate(() => true)` probe), the visible text a
live page's `evaluate` yields (`none` models a throwing `evaluate`), the
snapshot script's result per page, the nested `prepareSession` outcomes,
the `Date.now()` at entry, and the fill / click / navigation outcomes. -/
structure ExecEnv where
  pageAlive : Nat → Bool
  pageText : Nat → Option String
  pageObs : Nat → ObserveData
  prep : PrepEnv
  now : Nat
  fill : FillEnv
  click : ClickEnv
  navOk : String → Bool

/-- `quickObserve`: the page script on a live page, the catch default on a
dead one. -/
def quickObserve (env : ExecEnv) (pid : Nat) : ObserveData :=
  if env.pageAlive pid then env.pageObs pid else defaultObserve

/-- `getContactInfo` at the `execute` level: a throwing `evaluate` is caught
and mapped to the fixed failure message. -/
def getContactResult (env : ExecEnv) (pid : Nat) : String :=
  match env.pageText pid with
  | none => "Не успях да извлека контактите"
  | some t => getContactMessage t

/-- `session.lastActivity = Date.now()` (in-place mutation of the stored
session object). -/
def updateActivity (s : ManagerState) (id : String) (now : Nat) : ManagerState :=
  { s with
      sessions := s.sessions.map (fun p =>
        if p.1 == id then (p.1, { p.2 with lastActivity := now }) else p) }

/-- Does evaluating `fillForm` with `undefined` data throw?  It does at the
first field whose lower-cased keywords contain a check-in, check-out or
guests pattern (the short-circuited `data.check_in` access). -/
def fillThrowsOnNoData (form : SiteMapForm) : Bool :=
  form.fields.any (fun field =>
    let fk := field.keywords.map jsToLower
    PATTERNS_check_in.any (fun k => fk.contains k)
    || PATTERNS_check_out.any (fun k => fk.contains k)
    || PATTERNS_guests.any (fun k => fk.contains k))

/-- The `switch (action.type)` body of `execute`, run against page `pid`
of the local `session` variable. -/
def execRun (s : ManagerState) (req : ExecuteRequest) (env : ExecEnv) (pid : Nat)
    (siteMap : SiteMap) : ExecResult × ManagerState :=
  match matchAction req.keywords siteMap req.data with
  | .fill_form form dataOpt =>
    match dataOpt with
    | some d =>
      let r := fillForm env.fill form d
      ({ success := true, message := r.message
         observation := some (.snap (quickObserve env pid)), usedPageId := some pid }, s)
    | none =>
      if fillThrowsOnNoData form then
        ({ success := false, message := "Грешка при изпълнение"
           observation := none, usedPageId := some pid }, s)
      else
        let r := fillForm env.fill form ⟨none, none, none⟩
        ({ success := true, message := r.message
           observation := some (.snap (quickObserve env pid)), usedPageId := some pid }, s)
  | .click sel btnText =>
    let r := clickButton env.click sel (some btnText)
    ({ success := true, message := r.message
       observation := if r.tookSnapshot then some (.snap (quickObserve env pid)) else none
       usedPageId := some pid }, s)
  | .return_prices =>
    ({ success := true, message := formatPrices siteMap.prices
       observation := some (.priceList siteMap.prices), usedPageId := none }, s)
  | .return_contact =>
    ({ success := true, message := getContactResult env pid
       observation := none, usedPageId := some pid }, s)
  | .navigate url =>
    if env.navOk url then
      ({ success := true, message := "Отворих " ++ url
         observation := some (.snap (quickObserve env pid)), usedPageId := some pid }, s)
    else
      ({ success := true, message := "Не успях да отворя страницата"
         observation := none, usedPageId := some pid }, s)
  | .observe =>
    let o := quickObserve env pid
    ({ success := true, message := observeMessage o
       observation := some (.snap o), usedPageId := some pid }, s)

/-- `HotSessionManager.execute`.  The liveness probe runs on the stored
session's page; on failure `prepareSession` is re-run with the session's
existing site map, but the local `session` binding is never refreshed, so
the executors keep targeting the pre-recreation page id. -/
def execute (s : ManagerState) (req : ExecuteRequest) (env : ExecEnv) :
    ExecResult × ManagerState :=
  match lookupSession s req.site_id with
  | none =>
    ({ success := false, message := "Няма активна сесия. Моля, изчакайте зареждане."
       observation := none, usedPageId := none }, s)
  | some sess =>
    let s0 := updateActivity s req.site_id env.now
    if env.pageAlive sess.pageId then
      execRun s0 req env sess.pageId sess.siteMap
    else
      let s1 := (prepareSession s0 req.site_id sess.siteMap env.prep).2
      match lookupSession s1 req.site_id with
      | none =>
        ({ success := false, message := "Грешка при възстановяване на сесията"
           observation := none, usedPageId := none }, s1)
      | some _ => execRun s1 req env sess.pageId sess.siteMap

/- ─────────────────────── operation sequences ───────────────────────────── -/

/-- One public operation against the manager. -/
inductive WOp
  | prep (id : String) (sm : SiteMap) (env : PrepEnv)
  | exec (req : ExecuteRequest) (env : ExecEnv)
  | close (id : String)
  | sweep (now : Nat)

/-- State transition of one operation. -/
def applyOp (s : ManagerState) : WOp → ManagerState
  | .prep id sm env => (prepareSession s id sm env).2
  | .exec req env => (execute s req env).2
  | .close id => closeSession s id
  | .sweep now => cleanupSessions s now

/-- Run a sequence of operations from a state. -/
def runOps (s : ManagerState) (ops : List WOp) : ManagerState := ops.foldl applyOp s

/-- The store invariant: bounded size and JS-`Map` key uniqueness. -/
def StoreInv (s : ManagerState) : Prop :=
  s.sessions.length ≤ MAX_SESSIONS ∧ UniqueKeys s.sessions

/- ──────────────── spec-side reference formulations ─────────────────────── -/

/-- Modelled from the claim's wording (refinement reference for
`formatPrices`): at most the first 5 entries in order, an entry with a
non-empty context rendered as `"context: text"`, otherwise `"text"`,
joined by `"; "` and prefixed `"Цени: "`. -/
def formatPricesSpec (prices : List PriceEntry) : String :=
  "Цени: " ++ String.intercalate "; "
    ((prices.take 5).map (fun p =>
      if p.context ≠ "" then p.context ++ ": " ++ p.text else p.text))

/-- A field is successfully filled exactly when some of its selector
strategies finds an element and the fill primitive succeeds on it. -/
def fillSucceeds (env : FillEnv) (field : SiteMapField) : Bool :=
  (fieldSelectors field).any (fun sel => env.elemFound sel && env.fillOk sel)

/-- Spec-side reference for the `fillForm` summary entries: the fields whose
value resolves and whose fill succeeds, in declaration order, each rendered
as `"label: value"`. -/
def fillFormSpecEntries (env : FillEnv) (data : ExecData) (fields : List SiteMapField) :
    List String :=
  (fields.filter (fun f => (resolveValue data f).isSome && fillSucceeds env f)).map
    (fun f => fieldLabel f ++ ": " ++ (resolveValue data f).getD "")

/-- The field's lower-cased keywords meet the check-in vocabulary. -/
def fieldVocabCheckIn (field : SiteMapField) : Bool :=
  PATTERNS_check_in.any (fun k => (field.keywords.map jsToLower).contains k)

/-- The field's lower-cased keywords meet the check-out vocabulary. -/
def fieldVocabCheckOut (field : SiteMapField) : Bool :=
  PATTERNS_check_out.any (fun k => (field.keywords.map jsToLower).contains k)

/-- The field's lower-cased keywords meet the guest-count vocabulary. -/
def fieldVocabGuests (field : SiteMapField) : Bool :=
  PATTERNS_guests.any (fun k => (field.keywords.map jsToLower).contains k)

/- ───────────────── concrete inputs used by the theorems ────────────────── -/

/-- A site description with no structure at all. -/
def emptySite : SiteMap := ⟨"", "", [], [], []⟩

/-- A price-bearing demo site description. -/
def demoSite : SiteMap :=
  ⟨"demo", "demo.bg", [⟨"Цени", "#p", ["цени"], ActionType.other⟩], [],
   [⟨"120 лв", "Стандартна стая"⟩]⟩

/-- A date-bearing booking form. -/
def bkForm : SiteMapForm :=
  ⟨"#form", [⟨"checkin", "#ci", FieldType.date, ["check-in"]⟩], "#submit"⟩

/-- A booking-tagged button. -/
def bkBtn : SiteMapButton := ⟨"Резервирай", "#book", ["резервирай"], ActionType.booking⟩

/-- A site description holding both a date-bearing form and a booking
button. -/
def bkSite : SiteMap := ⟨"hotel", "hotel.bg", [bkBtn], [bkForm], []⟩

/-- A click environment in which every `page.click` call fails. -/
def clickEnvAllFail : ClickEnv := ⟨fun _ => false, fun _ => true⟩

/-- A fill environment in which every element is found and every primitive
succeeds. -/
def fillEnvAllOk : FillEnv := ⟨fun _ => true, fun _ => true, fun _ => true⟩

/-- A one-field check-in form. -/
def cform : SiteMapForm := ⟨"#f", [⟨"from", "#from", FieldType.text, ["from"]⟩], "#submit"⟩

/-- Structured data carrying only a check-in date. -/
def cdata : ExecData := ⟨some "2026-01-01", none, none⟩

/-- A baseline execute environment (all pages alive, every page action
fails or is empty). -/
def execEnvBase : ExecEnv :=
  { pageAlive := fun _ => true
    pageText := fun _ => none
    pageObs := fun _ => defaultObserve
    prep := ⟨true, true, 0⟩
    now := 0
    fill := ⟨fun _ => false, fun _ => false, fun _ => false⟩
    click := ⟨fun _ => false, fun _ => true⟩
    navOk := fun _ => false }

/-- Store for the liveness-recovery scenario: one session for `"a"` whose
page 1 is dead. -/
def stRecover : ManagerState :=
  { sessions := [("a", ⟨1, emptySite, 10, "https://a.bg"⟩)], nextPageId := 2, isReady := true }

/-- Environment for the liveness-recovery scenario: page 1 (the stored one)
is dead, the freshly created page 2 is alive, recreation succeeds. -/
def envRecover : ExecEnv :=
  { pageAlive := fun pid => pid == 2
    pageText := fun _ => none
    pageObs := fun _ => defaultObserve
    prep := ⟨true, true, 20⟩
    now := 15
    fill := ⟨fun _ => false, fun _ => false, fun _ => false⟩
    click := ⟨fun _ => false, fun _ => true⟩
    navOk := fun _ => false }

/-- The liveness-recovery environment with a failing recreation (context
creation fails). -/
def envRecoverFail : ExecEnv := { envRecover with prep := ⟨false, false, 20⟩ }

/-- A full store of 50 sessions keyed `"0"`‥`"49"`: entry `"0"` is the most
recently active, entry `"1"` has the strictly smallest `lastActivity`. -/
def fullStoreReplace : ManagerState :=
  { sessions := (List.range 50).map (fun i =>
      (toString i, ⟨i, emptySite, if i == 0 then 100 else i, ""⟩))
    nextPageId := 50
    isReady := true }

/-- A full store of 50 sessions keyed `"0"`‥`"49"` with `lastActivity`
`i + 1`, so entry `"0"` is the oldest. -/
def fullStoreFresh : ManagerState :=
  { sessions := (List.range 50).map (fun i => (toString i, ⟨i, emptySite, i + 1, ""⟩))
    nextPageId := 50
    isReady := true }

/-- A store holding one session for `"a"`. -/
def stSingleA : ManagerState :=
  { sessions := [("a", ⟨0, emptySite, 5, "https://a.bg"⟩)], nextPageId := 1, isReady := true }

/- ═══════════════════════════════ THEOREMS ══════════════════════════════ -/

/-- C7: `execute` against a site id with no entry in the Session Store
returns `{success: false}` with the fixed no-session message and leaves the
store unchanged — no session is created for that id. -/
theorem execute_unknown_site :
    ∀ (s : ManagerState) (req : ExecuteRequest) (env : ExecEnv),
      lookupSession s req.site_id = none →
      execute s req env =
        ({ success := false, message := "Няма активна сесия. Моля, изчакайте зареждане."
           observation := none, usedPageId := none }, s) := by
  intro s req env h
  unfold execute
  rw [h]

theorem execute_unknown_site_witness :
    execute initState ⟨"hotel-x", ["цена"], none⟩ execEnvBase =
      ({ success := false, message := "Няма активна сесия. Моля, изчакайте зареждане."
         observation := none, usedPageId := none }, initState) :=
  execute_unknown_site initState ⟨"hotel-x", ["цена"], none⟩ execEnvBase (by decide)

/-- C8: the matcher is a pure deterministic function — equal keyword lists,
equal optional structured data and equal site descriptions always produce
the identical action descriptor (the embedding of `matchAction` is a pure
function of exactly these three arguments, so no observable state is
touched). -/
theorem matchAction_deterministic :
    ∀ (k1 k2 : List String) (d1 d2 : Option ExecData) (m1 m2 : SiteMap),
      k1 = k2 → d1 = d2 → m1 = m2 →
      matchAction k1 m1 d1 = matchAction k2 m2 d2 := by
  intro k1 k2 d1 d2 m1 m2 hk hd hm
  subst hk; subst hd; subst hm
  rfl

theorem matchAction_deterministic_witness :
    matchAction ["цена"] demoSite none = matchAction ["цена"] demoSite none :=
  matchAction_deterministic ["цена"] ["цена"] none none demoSite demoSite rfl rfl rfl

/-- C4 (counterexample to the claim as stated): on the empty price list
`formatPrices` returns the fixed not-found message, not the
`"Цени: "`-prefixed rendering the claim describes for every (possibly
empty) list. -/
theorem formatPrices_empty_counterexample :
    formatPrices [] = "Не намерих цени на сайта"
    ∧ formatPricesSpec [] = "Цени: "
    ∧ ¬ formatPrices [] = formatPricesSpec [] := by
  refine ⟨rfl, rfl, ?_⟩
  decide

/-- C4 (amended): on every non-empty price list `formatPrices` renders at
most the first 5 entries in order — a non-empty context as
`"context: text"`, otherwise `"text"` — joined by `"; "` and prefixed
`"Цени: "`, consulting only the static description; the concrete example
from the claim evaluates to `"Цени: Стандартна стая: 120 лв"`.  The empty
list instead yields the fixed not-found message. -/
theorem formatPrices_correct :
    (∀ prices : List PriceEntry, prices ≠ [] → formatPrices prices = formatPricesSpec prices)
    ∧ formatPrices [⟨"120 лв", "Стандартна стая"⟩] = "Цени: Стандартна стая: 120 лв" := by
  constructor
  · intro prices h
    unfold formatPrices formatPricesSpec
    simp only [beq_iff_eq, h, if_false]
    congr 1
    congr 1
    apply List.map_congr_left
    intro p _
    by_cases hc : p.context = ""
    · simp [hc]
    · simp [hc]
  · decide

theorem formatPrices_correct_witness :
    formatPrices [⟨"120 лв", "Стандартна стая"⟩] =
      formatPricesSpec [⟨"120 лв", "Стандартна стая"⟩] :=
  formatPrices_correct.1 [⟨"120 лв", "Стандартна стая"⟩] (by decide)

/-- C5 (code bug, evaluated on the failing input): when the button text is
unknown and the declared-selector click fails, `clickButton` does not
return the generic failure message — the `buttonText && page.click(…)`
strategy resolves without throwing, so the function reports `"Кликнах"`
although no click was performed. -/
theorem clickButton_reports_ghost_click :
    (clickButton clickEnvAllFail "#btn" none).message = "Кликнах"
    ∧ (clickButton clickEnvAllFail "#btn" none).didClick = false
    ∧ ¬ (clickButton clickEnvAllFail "#btn" none).message = "Не успях да кликна" := by
  refine ⟨rfl, rfl, ?_⟩
  decide

/-- C3: whenever the joined lower-cased keyword text contains a
booking-vocabulary pattern (or structured dates are present) and the site
description holds both a form with a date-typed field and a booking-tagged
button, the matcher returns a `fill_form` action — never a `click`. -/
theorem matchAction_booking_prefers_form :
    ∀ (keywords : List String) (data : Option ExecData) (sm : SiteMap),
      (PATTERNS_booking.any
          (fun p => strContains (jsToLower (String.intercalate " " keywords)) p) = true
        ∨ hasDatesFn data = true) →
      (∃ f ∈ sm.forms, ∃ field ∈ f.fields, field.type = FieldType.date) →
      (∃ b ∈ sm.buttons, b.action_type = ActionType.booking) →
      ∃ form, matchAction keywords sm data = ActionDescriptor.fill_form form data := by
  intro keywords data sm hBook hForm _hBtn
  obtain ⟨f, hfmem, field, hfieldmem, hfieldty⟩ := hForm
  have hpred : dateFormPred f = true := by
    unfold dateFormPred
    refine List.any_eq_true.mpr ⟨field, hfieldmem, ?_⟩
    simp [hfieldty]
  have hfind : (sm.forms.find? dateFormPred).isSome := by
    exact List.find?_isSome.mpr ⟨f, hfmem, hpred⟩
  obtain ⟨form, hform⟩ := Option.isSome_iff_exists.mp hfind
  refine ⟨form, ?_⟩
  unfold matchAction
  rcases hBook with h | h
  · simp [h, hform]
  · simp [h, hform]

theorem matchAction_booking_prefers_form_witness :
    ∃ form, matchAction ["резервация", "стая"] bkSite none = ActionDescriptor.fill_form form none :=
  matchAction_booking_prefers_form ["резервация", "стая"] none bkSite
    (Or.inl (by decide)) (by decide) (by decide)

/-- C9: the contact scanner consults the permissive phone pattern first and
the strict one only when the first found nothing; the message reports
whatever was found with the phone part before the email part joined by
`". "`, a fixed not-found message when neither matched; and on text
containing `"+359 88 123 4567"` and `"a@b.com"` both a phone and the email
are reported, phone first. -/
theorem contact_scan :
    (∀ t : String, (findPhonePermissive t).isSome = true → phoneOf t = findPhonePermissive t)
    ∧ (∀ t : String, findPhonePermissive t = none → phoneOf t = findPhoneStrict t)
    ∧ (∀ (t p e : String), phoneOf t = some p → findEmail t = some e →
        getContactMessage t = "Телефон: " ++ p ++ ". " ++ "Email: " ++ e)
    ∧ (∀ (t p : String), phoneOf t = some p → findEmail t = none →
        getContactMessage t = "Телефон: " ++ p)
    ∧ (∀ (t e : String), phoneOf t = none → findEmail t = some e →
        getContactMessage t = "Email: " ++ e)
    ∧ (∀ t : String, phoneOf t = none → findEmail t = none →
        getContactMessage t = "Не намерих контактна информация на тази страница")
    ∧ getContactMessage "Тел: +359 88 123 4567 Имейл: a@b.com" =
        "Телефон: +359 88 123 456. Email: a@b.com" := by
  refine ⟨?_, ?_, ?_, ?_, ?_, ?_, ?_⟩
  · intro t h
    cases hp : findPhonePermissive t with
    | none => rw [hp] at h; cases h
    | some p => simp [phoneOf, hp]
  · intro t h
    simp [phoneOf, h]
  · intro t p e h1 h2
    have hmsg : getContactMessage t = ("Телефон: " ++ p) ++ ". " ++ ("Email: " ++ e) := by
      simp [getContactMessage, h1, h2, joinDot]
    rw [hmsg, ← String.append_assoc]
  · intro t p h1 h2
    simp [getContactMessage, h1, h2, joinDot]
  · intro t e h1 h2
    simp [getContactMessage, h1, h2, joinDot]
  · intro t h1 h2
    simp [getContactMessage, h1, h2]
  · decide

theorem contact_scan_witness :
    getContactMessage "0888123456 x@y.bg" =
      "Телефон: " ++ "0888123456" ++ ". " ++ "Email: " ++ "x@y.bg" :=
  contact_scan.2.2.1 "0888123456 x@y.bg" "0888123456" "x@y.bg" (by decide) (by decide)

lemma tryFillAux_filled (env : FillEnv) (v : String) (sels : List String) :
    (tryFillAux env v sels).1 = sels.any (fun sel => env.elemFound sel && env.fillOk sel) := by
  induction sels with
  | nil => rfl
  | cons sel rest ih =>
    unfold tryFillAux
    by_cases he : env.elemFound sel = true
    · by_cases hf : env.fillOk sel = true
      · simp [he, hf]
      · simp only [he, if_true, hf, if_false, Bool.false_eq_true]
        simp [List.any_cons, he, hf, ih]
    · simp [List.any_cons, he, ih]

lemma tryFillAux_attempts (env : FillEnv) (v : String) (sels : List String) :
    ∀ sv ∈ (tryFillAux env v sels).2, sv.1 ∈ sels ∧ sv.2 = v := by
  induction sels with
  | nil => intro sv h; cases h
  | cons sel rest ih =>
    intro sv hsv
    unfold tryFillAux at hsv
    by_cases he : env.elemFound sel = true
    · by_cases hf : env.fillOk sel = true
      · have hsv' : sv = (sel, v) := by simpa [he, hf] using hsv
        subst hsv'
        exact ⟨List.mem_cons_self _ _, rfl⟩
      · have hsv' : sv = (sel, v) ∨ sv ∈ (tryFillAux env v rest).2 := by
          simpa [he, hf] using hsv
        rcases hsv' with h | h
        · subst h; exact ⟨List.mem_cons_self _ _, rfl⟩
        · obtain ⟨h1, h2⟩ := ih sv h
          exact ⟨List.mem_cons_of_mem _ h1, h2⟩
    · have hsv' : sv ∈ (tryFillAux env v rest).2 := by simpa [he] using hsv
      obtain ⟨h1, h2⟩ := ih sv hsv'
      exact ⟨List.mem_cons_of_mem _ h1, h2⟩

lemma fillFormLoop_entries (env : FillEnv) (data : ExecData) (fields : List SiteMapField) :
    (fillFormLoop env data fields).1 = fillFormSpecEntries env data fields := by
  induction fields with
  | nil => rfl
  | cons field rest ih =>
    unfold fillFormLoop fillFormSpecEntries
    cases hr : resolveValue data field with
    | none =>
      simp only [hr, List.filter_cons, Option.isSome_none, Bool.false_and, if_false]
      simpa [fillFormSpecEntries] using ih
    | some v =>
      have hfill : (tryFillAux env v (fieldSelectors field)).1 = fillSucceeds env field :=
        tryFillAux_filled env v (fieldSelectors field)
      by_cases hs : fillSucceeds env field = true
      · simp only [hr, List.filter_cons, Option.isSome_some, Bool.true_and, hs, if_true]
        simp only [hfill, hs, if_true, List.map_cons]
        simp only [hr, Option.getD_some]
        simpa [fillFormSpecEntries] using congrArg (List.cons (fieldLabel field ++ ": " ++ v)) ih
      · have hs' : fillSucceeds env field = false := by
          cases h : fillSucceeds env field
          · rfl
          · exact absurd h hs
        simp only [hr, List.filter_cons, Option.isSome_some, Bool.true_and, hs', if_false]
        simp only [hfill, hs', Bool.false_eq_true, if_false, List.nil_append]
        simpa [fillFormSpecEntries] using ih

lemma fillFormLoop_attempts (env : FillEnv) (data : ExecData) (fields : List SiteMapField) :
    ∀ sv ∈ (fillFormLoop env data fields).2,
      ∃ field ∈ fields, resolveValue data field = some sv.2 ∧ sv.1 ∈ fieldSelectors field := by
  induction fields with
  | nil => intro sv h; cases h
  | cons field rest ih =>
    intro sv hsv
    unfold fillFormLoop at hsv
    rcases List.mem_append.mp hsv with h | h
    · cases hr : resolveValue data field with
      | none => rw [hr] at h; cases h
      | some v =>
        rw [hr] at h
        obtain ⟨h1, h2⟩ := tryFillAux_attempts env v (fieldSelectors field) sv h
        exact ⟨field, List.mem_cons_self _ _, by rw [hr, h2], h1⟩
    · obtain ⟨f, hf1, hf2, hf3⟩ := ih sv h
      exact ⟨f, List.mem_cons_of_mem _ hf1, hf2, hf3⟩

lemma resolveValue_vocab (data : ExecData) (field : SiteMapField) (v : String)
    (h : resolveValue data field = some v) :
    (fieldVocabCheckIn field = true ∧ jsTruthyS data.check_in = true)
    ∨ (fieldVocabCheckOut field = true ∧ jsTruthyS data.check_out = true)
    ∨ (fieldVocabGuests field = true ∧ jsTruthyN data.guests = true) := by
  unfold fieldVocabCheckIn fieldVocabCheckOut fieldVocabGuests
  unfold resolveValue at h
  split_ifs at h with h1 h2 h3
  · rw [Bool.and_eq_true] at h1
    exact Or.inl h1
  · rw [Bool.and_eq_true] at h2
    exact Or.inr (Or.inl h2)
  · rw [Bool.and_eq_true] at h3
    exact Or.inr (Or.inr h3)

/-- C6 (amended): `fillForm` attempts a fill only for fields whose
lower-cased keywords meet the check-in, check-out or guest-count vocabulary
with the corresponding datum present; the message lists exactly the fields
actually filled (in order, each as `"label: value"`) followed by
`"Търсене"` precisely when at least one field was filled and the declared
submit control was activated successfully; no field was filled yields the
fixed failure message. -/
theorem fillForm_summary :
    ∀ (env : FillEnv) (form : SiteMapForm) (data : ExecData),
      (∀ sv ∈ (fillForm env form data).attempts,
        ∃ field ∈ form.fields,
          resolveValue data field = some sv.2
          ∧ sv.1 ∈ fieldSelectors field
          ∧ ((fieldVocabCheckIn field = true ∧ jsTruthyS data.check_in = true)
            ∨ (fieldVocabCheckOut field = true ∧ jsTruthyS data.check_out = true)
            ∨ (fieldVocabGuests field = true ∧ jsTruthyN data.guests = true)))
      ∧ (fillForm env form data).message =
          (if (if (fillForm env form data).submitted then
                fillFormSpecEntries env data form.fields ++ ["Търсене"]
              else fillFormSpecEntries env data form.fields) = [] then
            "Не успях да попълня формата"
          else
            "Попълних: " ++ String.intercalate ", "
              (if (fillForm env form data).submitted then
                fillFormSpecEntries env data form.fields ++ ["Търсене"]
              else fillFormSpecEntries env data form.fields))
      ∧ ((fillForm env form data).submitted = true ↔
          (form.submit_button ≠ ""
          ∧ fillFormSpecEntries env data form.fields ≠ []
          ∧ env.submitClickOk form.submit_button = true)) := by
  intro env form data
  refine ⟨?_, ?_, ?_⟩
  · intro sv hsv
    have hsv' : sv ∈ (fillFormLoop env data form.fields).2 := hsv
    obtain ⟨field, h1, h2, h3⟩ := fillFormLoop_attempts env data form.fields sv hsv'
    exact ⟨field, h1, h2, h3, resolveValue_vocab data field sv.2 h2⟩
  · show (fillForm env form data).message = _
    unfold fillForm
    simp only [fillFormLoop_entries env data form.fields]
    by_cases hsub :
        (!(form.submit_button == "")
          && !(fillFormSpecEntries env data form.fields == [])
          && env.submitClickOk form.submit_button) = true
    · simp only [hsub, if_true]
      by_cases hemp : (fillFormSpecEntries env data form.fields ++ ["Търсене"]) = []
      · cases List.append_ne_nil_of_right_ne_nil (fillFormSpecEntries env data form.fields)
          (by simp : (["Търсене"] : List String) ≠ []) hemp
      · simp [hemp]
    · have hsub' :
          (!(form.submit_button == "")
            && !(fillFormSpecEntries env data form.fields == [])
            && env.submitClickOk form.submit_button) = false := by
        cases h : (!(form.submit_button == "")
          && !(fillFormSpecEntries env data form.fields == [])
          && env.submitClickOk form.submit_button)
        · rfl
        · exact absurd h hsub
      simp only [hsub', Bool.false_eq_true, if_false]
      by_cases hemp : fillFormSpecEntries env data form.fields = []
      · simp [hemp]
      · simp [hemp]
  · show (!(form.submit_button == "")
        && !((fillFormLoop env data form.fields).1 == [])
        && env.submitClickOk form.submit_button) = true ↔ _
    rw [fillFormLoop_entries env data form.fields]
    simp [Bool.and_eq_true, Bool.not_eq_true', beq_iff_eq, and_assoc]

/-- C6 (counterexample to the claim as stated): when the submit click
succeeds, the success message additionally lists `"Търсене"`, so it does
not list only the filled `"label: value"` entries. -/
theorem fillForm_summary_counterexample :
    (fillForm fillEnvAllOk cform cdata).message = "Попълних: from: 2026-01-01, Търсене"
    ∧ ¬ (fillForm fillEnvAllOk cform cdata).message = "Попълних: from: 2026-01-01" := by
  constructor
  · rfl
  · decide

theorem fillForm_summary_witness :
    ∃ field ∈ cform.fields,
      resolveValue cdata field = some "2026-01-01"
      ∧ "#from" ∈ fieldSelectors field
      ∧ ((fieldVocabCheckIn field = true ∧ jsTruthyS cdata.check_in = true)
        ∨ (fieldVocabCheckOut field = true ∧ jsTruthyS cdata.check_out = true)
        ∨ (fieldVocabGuests field = true ∧ jsTruthyN cdata.guests = true)) :=
  (fillForm_summary fillEnvAllOk cform cdata).1 ("#from", "2026-01-01") (by decide)

lemma uniqueKeys_sublist {l1 l2 : List (String × SessionM)} (hs : l1.Sublist l2)
    (h : UniqueKeys l2) : UniqueKeys l1 :=
  List.Nodup.sublist (hs.map Prod.fst) h

lemma uniqueKeys_map_fst_preserved {l : List (String × SessionM)}
    {f : String × SessionM → String × SessionM} (hf : ∀ p ∈ l, (f p).1 = p.1)
    (h : UniqueKeys l) : UniqueKeys (l.map f) := by
  unfold UniqueKeys
  rw [List.map_map]
  have : l.map (Prod.fst ∘ f) = l.map Prod.fst := List.map_congr_left (fun p hp => hf p hp)
  rw [this]
  exact h

lemma uniqueKeys_mapSet {l : List (String × SessionM)} {k : String} {v : SessionM}
    (h : UniqueKeys l) : UniqueKeys (mapSet l k v) := by
  unfold mapSet
  by_cases hc : l.any (fun p => p.1 == k) = true
  · rw [if_pos hc]
    apply uniqueKeys_map_fst_preserved _ h
    intro p _
    by_cases hpk : (p.1 == k) = true
    · rw [if_pos hpk]
      exact (eq_of_beq hpk).symm
    · rw [if_neg hpk]
  · rw [if_neg hc]
    have hc' : l.any (fun p => p.1 == k) = false := by
      cases hx : l.any (fun p => p.1 == k)
      · rfl
      · exact absurd hx hc
    unfold UniqueKeys
    rw [List.map_append, List.nodup_append]
    refine ⟨h, by simp, ?_⟩
    intro a ha hb
    have hak : a = k := by simpa using hb
    obtain ⟨p, hp, hpa⟩ := List.mem_map.mp ha
    have := List.any_eq_false.mp hc' p hp
    apply this
    rw [← hak] at *
    exact beq_iff_eq.mpr hpa

lemma bool_ne_true_eq_false {b : Bool} (h : ¬ b = true) : b = false := by
  cases b
  · rfl
  · exact absurd rfl h

lemma find?_eraseP_self {l : List (String × SessionM)} {id : String} (h : UniqueKeys l) :
    (l.eraseP (fun p => p.1 == id)).find? (fun p => p.1 == id) = none := by
  induction l with
  | nil => rfl
  | cons p rest ih =>
    have hU : p.1 ∉ rest.map Prod.fst ∧ UniqueKeys rest := by
      unfold UniqueKeys at h
      rw [List.map_cons, List.nodup_cons] at h
      exact h
    rw [List.eraseP_cons]
    by_cases hp : (p.1 == id) = true
    · simp only [hp, cond_true]
      apply List.find?_eq_none.mpr
      intro q hq hqid
      apply hU.1
      have h1 : q.1 = id := eq_of_beq hqid
      have h2 : p.1 = id := eq_of_beq hp
      rw [h2, ← h1]
      exact List.mem_map_of_mem Prod.fst hq
    · have hpf : (p.1 == id) = false := bool_ne_true_eq_false hp
      simp only [hpf, cond_false, List.find?_cons]
      exact ih hU.2

lemma find?_eraseP_other {l : List (String × SessionM)} (k k' : String) (hne : ¬ k = k') :
    (l.eraseP (fun p => p.1 == k')).find? (fun p => p.1 == k)
      = l.find? (fun p => p.1 == k) := by
  induction l with
  | nil => rfl
  | cons p rest ih =>
    rw [List.eraseP_cons]
    by_cases hp' : (p.1 == k') = true
    · have hpk : (p.1 == k) = false := by
        apply bool_ne_true_eq_false
        intro hk
        exact hne (by rw [← eq_of_beq (hk : (p.1 == k) = true), eq_of_beq hp'])
      simp only [hp', cond_true, List.find?_cons, hpk]
    · have hpf : (p.1 == k') = false := bool_ne_true_eq_false hp'
      simp only [hpf, cond_false, List.find?_cons]
      by_cases hpk : (p.1 == k) = true
      · simp only [hpk]
      · have hpk2 : (p.1 == k) = false := bool_ne_true_eq_false hpk
        simp only [hpk2]
        exact ih

lemma find?_sublist_none {l1 l2 : List (String × SessionM)}
    {pred : String × SessionM → Bool} (hs : l1.Sublist l2) (h : l2.find? pred = none) :
    l1.find? pred = none :=
  List.find?_eq_none.mpr (fun x hx => List.find?_eq_none.mp h x (hs.subset hx))

lemma oldStep_isSome (a : Option (String × Nat)) (p : String × SessionM) :
    (oldStep a p).isSome = true := by
  cases a with
  | none => rfl
  | some pr =>
    obtain ⟨oid, ot⟩ := pr
    by_cases hlt : p.2.lastActivity < ot
    · simp [oldStep, hlt]
    · simp [oldStep, hlt]

lemma foldl_oldStep_isSome (l : List (String × SessionM)) :
    ∀ a : Option (String × Nat), a.isSome = true → (l.foldl oldStep a).isSome = true := by
  induction l with
  | nil => intro a h; exact h
  | cons p rest ih =>
    intro a _
    rw [List.foldl_cons]
    exact ih (oldStep a p) (oldStep_isSome a p)

lemma oldestEntry_isSome {l : List (String × SessionM)} (h : l ≠ []) :
    (oldestEntry l).isSome = true := by
  cases l with
  | nil => exact absurd rfl h
  | cons p rest =>
    unfold oldestEntry
    rw [List.foldl_cons]
    exact foldl_oldStep_isSome rest (oldStep none p) (oldStep_isSome none p)

lemma foldl_oldStep_spec (l : List (String × SessionM)) :
    ∀ (acc : Option (String × Nat)) (oid : String) (ot : Nat),
      l.foldl oldStep acc = some (oid, ot) →
      (∀ p ∈ l, ot ≤ p.2.lastActivity)
      ∧ ((∃ sess, (oid, sess) ∈ l ∧ sess.lastActivity = ot) ∨ acc = some (oid, ot))
      ∧ (∀ i t, acc = some (i, t) → ot ≤ t) := by
  induction l with
  | nil =>
    intro acc oid ot h
    rw [List.foldl_nil] at h
    refine ⟨by simp, Or.inr h, ?_⟩
    intro i t hit
    rw [h] at hit
    cases hit
    exact le_refl ot
  | cons p rest ih =>
    intro acc oid ot h
    rw [List.foldl_cons] at h
    obtain ⟨ih1, ih2, ih3⟩ := ih (oldStep acc p) oid ot h
    have hstep : ∀ i t, oldStep acc p = some (i, t) → ot ≤ t := ih3
    have hp_le : ot ≤ p.2.lastActivity := by
      cases acc with
      | none => exact hstep p.1 p.2.lastActivity rfl
      | some a =>
        obtain ⟨i0, t0⟩ := a
        by_cases hlt : p.2.lastActivity < t0
        · exact hstep p.1 p.2.lastActivity (by simp [oldStep, hlt])
        · have h1 : ot ≤ t0 := hstep i0 t0 (by simp [oldStep, hlt])
          omega
    refine ⟨?_, ?_, ?_⟩
    · intro q hq
      rcases List.mem_cons.mp hq with hq1 | hq2
      · rw [hq1]; exact hp_le
      · exact ih1 q hq2
    · rcases ih2 with hmem | hacc
      · obtain ⟨sess, hsmem, hsla⟩ := hmem
        exact Or.inl ⟨sess, List.mem_cons_of_mem _ hsmem, hsla⟩
      · cases acc with
        | none =>
          have heq : p.1 = oid ∧ p.2.lastActivity = ot := by
            have h3 := hacc
            simp [oldStep] at h3
            exact h3
          exact Or.inl ⟨p.2, by rw [← heq.1]; exact List.mem_cons_self _ _, heq.2⟩
        | some a =>
          obtain ⟨i0, t0⟩ := a
          by_cases hlt : p.2.lastActivity < t0
          · have heq : p.1 = oid ∧ p.2.lastActivity = ot := by
              have h3 := hacc
              simp [oldStep, hlt] at h3
              exact h3
            exact Or.inl ⟨p.2, by rw [← heq.1]; exact List.mem_cons_self _ _, heq.2⟩
          · have h3 := hacc
            simp [oldStep, hlt] at h3
            exact Or.inr (by rw [h3.1, h3.2])
    · intro i t hit
      cases hit
      by_cases hlt : p.2.lastActivity < t
      · have := hstep p.1 p.2.lastActivity (by simp [oldStep, hlt])
        omega
      · exact hstep i t (by simp [oldStep, hlt])

lemma oldestEntry_min {l : List (String × SessionM)} {oid : String} {ot : Nat}
    (h : oldestEntry l = some (oid, ot)) : ∀ p ∈ l, ot ≤ p.2.lastActivity :=
  (foldl_oldStep_spec l none oid ot h).1

lemma oldestEntry_mem {l : List (String × SessionM)} {oid : String} {ot : Nat}
    (h : oldestEntry l = some (oid, ot)) :
    ∃ sess, (oid, sess) ∈ l ∧ sess.lastActivity = ot := by
  rcases (foldl_oldStep_spec l none oid ot h).2.1 with hm | habs
  · exact hm
  · cases habs

lemma mapSet_length_le (l : List (String × SessionM)) (k : String) (v : SessionM) :
    (mapSet l k v).length ≤ l.length + 1 := by
  unfold mapSet
  by_cases hc : l.any (fun p => p.1 == k) = true
  · rw [if_pos hc, List.length_map]
    omega
  · rw [if_neg hc, List.length_append]
    simp

lemma mapSet_not_mem_eq (l : List (String × SessionM)) (k : String) (v : SessionM)
    (h : l.find? (fun p => p.1 == k) = none) : mapSet l k v = l ++ [(k, v)] := by
  unfold mapSet
  have hc : l.any (fun p => p.1 == k) = false :=
    List.any_eq_false.mpr (fun x hx => List.find?_eq_none.mp h x hx)
  rw [hc]
  simp

lemma prepInsert_ctx_fail (s2 : ManagerState) (id : String) (sm : SiteMap) (env : PrepEnv)
    (h : env.ctxOk = false) : prepInsert s2 id sm env = (false, s2) := by
  unfold prepInsert
  simp [h]

lemma prepInsert_nav_fail (s2 : ManagerState) (id : String) (sm : SiteMap) (env : PrepEnv)
    (hc : env.ctxOk = true) (hn : env.navOk = false) :
    prepInsert s2 id sm env = (false, { s2 with nextPageId := s2.nextPageId + 1 }) := by
  unfold prepInsert
  simp [hc, hn]

lemma prepInsert_ok (s2 : ManagerState) (id : String) (sm : SiteMap) (env : PrepEnv)
    (hc : env.ctxOk = true) (hn : env.navOk = true) :
    prepInsert s2 id sm env =
      (true,
       { sessions := mapSet s2.sessions id
           { pageId := s2.nextPageId, siteMap := sm, lastActivity := env.now
             currentUrl := normalizeUrl sm.url }
         nextPageId := s2.nextPageId + 1
         isReady := s2.isReady }) := by
  unfold prepInsert
  simp [hc, hn]

lemma prepareSession_ready_reduce (s : ManagerState) (id : String) (sm : SiteMap)
    (env : PrepEnv) (hr : s.isReady = true) :
    prepareSession s id sm env =
      prepInsert
        (if MAX_SESSIONS ≤ (closeSession s id).sessions.length then
          evictOldest (closeSession s id)
        else closeSession s id) id sm env := by
  unfold prepareSession
  simp [hr]

lemma prepareSession_not_ready (s : ManagerState) (id : String) (sm : SiteMap)
    (env : PrepEnv) (hr : s.isReady = false) :
    prepareSession s id sm env = (false, s) := by
  unfold prepareSession
  simp [hr]

lemma storeInv_closeSession {s : ManagerState} (h : StoreInv s) (id : String) :
    StoreInv (closeSession s id) :=
  ⟨le_trans (List.eraseP_sublist s.sessions).length_le h.1,
   uniqueKeys_sublist (List.eraseP_sublist s.sessions) h.2⟩

lemma storeInv_evictOldest {s : ManagerState} (h : StoreInv s) :
    StoreInv (evictOldest s) := by
  unfold evictOldest
  cases ho : oldestEntry s.sessions with
  | none => exact h
  | some pr =>
    obtain ⟨oid, ot⟩ := pr
    exact storeInv_closeSession h oid

lemma evictOldest_length_lt {s : ManagerState} (h : s.sessions ≠ []) :
    (evictOldest s).sessions.length < s.sessions.length := by
  obtain ⟨pr, ho⟩ := Option.isSome_iff_exists.mp (oldestEntry_isSome h)
  obtain ⟨oid, ot⟩ := pr
  obtain ⟨sess, hmem, _⟩ := oldestEntry_mem ho
  unfold evictOldest
  rw [ho]
  unfold closeSession
  have hpred : (fun p : String × SessionM => p.1 == oid) (oid, sess) = true := by
    simp
  have := @List.length_eraseP_add_one (String × SessionM)
    (fun p => p.1 == oid) s.sessions (oid, sess) hmem hpred
  simp only []
  omega

lemma storeInv_prepareSession (s : ManagerState) (id : String) (sm : SiteMap)
    (env : PrepEnv) (h : StoreInv s) : StoreInv (prepareSession s id sm env).2 := by
  cases hr : s.isReady with
  | false =>
    rw [prepareSession_not_ready s id sm env hr]
    exact h
  | true =>
    rw [prepareSession_ready_reduce s id sm env hr]
    have h1 : StoreInv (closeSession s id) := storeInv_closeSession h id
    set s2 : ManagerState :=
      (if MAX_SESSIONS ≤ (closeSession s id).sessions.length then
        evictOldest (closeSession s id)
      else closeSession s id) with hs2
    have h2 : StoreInv s2 ∧ s2.sessions.length < MAX_SESSIONS := by
      rw [hs2]
      by_cases hcap : MAX_SESSIONS ≤ (closeSession s id).sessions.length
      · rw [if_pos hcap]
        have hne : (closeSession s id).sessions ≠ [] := by
          intro hnil
          rw [hnil] at hcap
          simp [MAX_SESSIONS] at hcap
        have hlt := evictOldest_length_lt hne
        have hle : (closeSession s id).sessions.length ≤ MAX_SESSIONS := h1.1
        exact ⟨storeInv_evictOldest h1, by omega⟩
      · rw [if_neg hcap]
        exact ⟨h1, by omega⟩
    cases hc : env.ctxOk with
    | false =>
      rw [prepInsert_ctx_fail _ _ _ _ hc]
      exact h2.1
    | true =>
      cases hn : env.navOk with
      | false =>
        rw [prepInsert_nav_fail _ _ _ _ hc hn]
        exact h2.1
      | true =>
        rw [prepInsert_ok _ _ _ _ hc hn]
        refine ⟨?_, uniqueKeys_mapSet h2.1.2⟩
        have := mapSet_length_le s2.sessions id
          { pageId := s2.nextPageId, siteMap := sm, lastActivity := env.now
            currentUrl := normalizeUrl sm.url }
        have hlen := h2.2
        simp only []
        omega

lemma storeInv_updateActivity {s : ManagerState} (h : StoreInv s) (id : String) (now : Nat) :
    StoreInv (updateActivity s id now) := by
  constructor
  · show (s.sessions.map _).length ≤ MAX_SESSIONS
    rw [List.length_map]
    exact h.1
  · apply uniqueKeys_map_fst_preserved _ h.2
    intro p _
    by_cases hp : (p.1 == id) = true
    · rw [if_pos hp]
    · rw [if_neg hp]

lemma execRun_state (s : ManagerState) (req : ExecuteRequest) (env : ExecEnv) (pid : Nat)
    (sm : SiteMap) : (execRun s req env pid sm).2 = s := by
  unfold execRun
  cases hm : matchAction req.keywords sm req.data with
  | fill_form form d =>
    cases d with
    | none =>
      by_cases hf : fillThrowsOnNoData form = true
      · simp [hf]
      · simp [hf]
    | some dd => rfl
  | click sel bt => rfl
  | return_prices => rfl
  | return_contact => rfl
  | navigate url =>
    by_cases hn : env.navOk url = true
    · simp [hn]
    · simp [hn]
  | observe => rfl

lemma storeInv_execute (s : ManagerState) (req : ExecuteRequest) (env : ExecEnv)
    (h : StoreInv s) : StoreInv (execute s req env).2 := by
  unfold execute
  cases hl : lookupSession s req.site_id with
  | none => exact h
  | some sess =>
    have hup : StoreInv (updateActivity s req.site_id env.now) :=
      storeInv_updateActivity h req.site_id env.now
    cases hpa : env.pageAlive sess.pageId with
    | true =>
      simp only [hpa, if_true]
      rw [execRun_state]
      exact hup
    | false =>
      simp only [hpa, Bool.false_eq_true, if_false]
      have hprep : StoreInv
          (prepareSession (updateActivity s req.site_id env.now) req.site_id
            sess.siteMap env.prep).2 :=
        storeInv_prepareSession _ _ _ _ hup
      cases hl1 : lookupSession
          (prepareSession (updateActivity s req.site_id env.now) req.site_id
            sess.siteMap env.prep).2 req.site_id with
      | none => exact hprep
      | some s1 =>
        rw [execRun_state]
        exact hprep

lemma storeInv_cleanup {s : ManagerState} (h : StoreInv s) (now : Nat) :
    StoreInv (cleanupSessions s now) :=
  ⟨le_trans (List.filter_sublist s.sessions).length_le h.1,
   uniqueKeys_sublist (List.filter_sublist s.sessions) h.2⟩

lemma storeInv_applyOp (s : ManagerState) (op : WOp) (h : StoreInv s) :
    StoreInv (applyOp s op) := by
  cases op with
  | prep id sm env => exact storeInv_prepareSession s id sm env h
  | exec req env => exact storeInv_execute s req env h
  | close id => exact storeInv_closeSession h id
  | sweep now => exact storeInv_cleanup h now

lemma storeInv_runOps (ops : List WOp) :
    ∀ s : ManagerState, StoreInv s → StoreInv (runOps s ops) := by
  induction ops with
  | nil => intro s h; exact h
  | cons op rest ih =>
    intro s h
    show StoreInv (runOps (applyOp s op) rest)
    exact ih (applyOp s op) (storeInv_applyOp s op h)

/-- `lookupSession` on a literal state. -/
lemma lookupSession_mk (l : List (String × SessionM)) (n : Nat) (b : Bool) (k : String) :
    lookupSession ⟨l, n, b⟩ k = (l.find? (fun p => p.1 == k)).map Prod.snd := rfl

/-- C1 (amended): starting from the freshly started manager, no sequence of
`prepareSession`, `execute`, `closeSession` and `cleanupSessions` operations
ever drives the Session Store above `MAX_SESSIONS` (50) entries; and
whenever `prepareSession` is called while the store is at capacity **with an
id that has no current session**, exactly one entry is evicted before
insertion, namely the first entry whose `lastActivity` is minimal at that
moment: that entry is absent afterwards, every other entry apart from the
inserted id is untouched, and a successful prepare leaves the store size
unchanged.  (When the id is already present, its own entry is replaced and
no minimal-`lastActivity` eviction occurs — see the counterexample.) -/
theorem session_store_capacity :
    (∀ ops : List WOp, (runOps initState ops).sessions.length ≤ MAX_SESSIONS)
    ∧ (∀ (s : ManagerState) (id : String) (sm : SiteMap) (env : PrepEnv)
        (oid : String) (ot : Nat),
        UniqueKeys s.sessions →
        MAX_SESSIONS ≤ s.sessions.length →
        lookupSession s id = none →
        s.isReady = true →
        oldestEntry s.sessions = some (oid, ot) →
        lookupSession (prepareSession s id sm env).2 oid = none
        ∧ (∀ p ∈ s.sessions, ot ≤ p.2.lastActivity)
        ∧ (∀ k, ¬ k = oid → ¬ k = id →
            lookupSession (prepareSession s id sm env).2 k = lookupSession s k)
        ∧ ((prepareSession s id sm env).1 = true →
            (prepareSession s id sm env).2.sessions.length = s.sessions.length)) := by
  constructor
  · intro ops
    exact (storeInv_runOps ops initState ⟨Nat.zero_le _, List.nodup_nil⟩).1
  · intro s id sm env oid ot hU hcap hnone hready hold
    have hfind : s.sessions.find? (fun p => p.1 == id) = none := by
      unfold lookupSession at hnone
      cases hx : s.sessions.find? (fun p => p.1 == id) with
      | none => rfl
      | some q => rw [hx] at hnone; cases hnone
    have hforall : ∀ p ∈ s.sessions, ¬ ((fun q : String × SessionM => q.1 == id) p = true) :=
      List.find?_eq_none.mp hfind
    have hclose : closeSession s id = s := by
      unfold closeSession
      rw [List.eraseP_of_forall_not hforall]
    obtain ⟨sessO, hmemO, hlaO⟩ := oldestEntry_mem hold
    have hne_oid_id : ¬ oid = id := by
      intro he
      exact hforall (oid, sessO) hmemO (by simp [he])
    have hne_id_oid : ¬ id = oid := fun he => hne_oid_id he.symm
    have hl2U : UniqueKeys (s.sessions.eraseP (fun p => p.1 == oid)) :=
      uniqueKeys_sublist (List.eraseP_sublist _) hU
    have f1 : (s.sessions.eraseP (fun p => p.1 == oid)).find? (fun p => p.1 == oid) = none :=
      find?_eraseP_self hU
    have f2 : (s.sessions.eraseP (fun p => p.1 == oid)).find? (fun p => p.1 == id) = none := by
      rw [find?_eraseP_other id oid hne_id_oid]
      exact hfind
    have hred : prepareSession s id sm env =
        prepInsert ⟨s.sessions.eraseP (fun p => p.1 == oid), s.nextPageId, s.isReady⟩
          id sm env := by
      rw [prepareSession_ready_reduce s id sm env hready, hclose, if_pos hcap]
      unfold evictOldest
      rw [hold]
      rfl
    have hidO : ((id == oid) : Bool) = false := beq_eq_false_iff_ne.mpr hne_id_oid
    refine ⟨?_, oldestEntry_min hold, ?_, ?_⟩
    · rw [hred]
      cases hc : env.ctxOk with
      | false =>
        rw [prepInsert_ctx_fail _ _ _ _ hc]
        simp [lookupSession, f1]
      | true =>
        cases hn : env.navOk with
        | false =>
          rw [prepInsert_nav_fail _ _ _ _ hc hn]
          simp [lookupSession, f1]
        | true =>
          rw [prepInsert_ok _ _ _ _ hc hn]
          simp only [lookupSession]
          rw [mapSet_not_mem_eq _ id _ f2, List.find?_append, f1]
          simp [List.find?_cons, hidO]
    · intro k hkoid hkid
      have hidk : ((id == k) : Bool) = false :=
        beq_eq_false_iff_ne.mpr (fun he => hkid he.symm)
      have fk : (s.sessions.eraseP (fun p => p.1 == oid)).find? (fun p => p.1 == k)
          = s.sessions.find? (fun p => p.1 == k) :=
        find?_eraseP_other k oid hkoid
      rw [hred]
      cases hc : env.ctxOk with
      | false =>
        rw [prepInsert_ctx_fail _ _ _ _ hc]
        simp [lookupSession, fk]
      | true =>
        cases hn : env.navOk with
        | false =>
          rw [prepInsert_nav_fail _ _ _ _ hc hn]
          simp [lookupSession, fk]
        | true =>
          rw [prepInsert_ok _ _ _ _ hc hn]
          simp only [lookupSession]
          rw [mapSet_not_mem_eq _ id _ f2, List.find?_append, fk]
          simp [List.find?_cons, hidk]
    · rw [hred]
      cases hc : env.ctxOk with
      | false =>
        rw [prepInsert_ctx_fail _ _ _ _ hc]
        simp
      | true =>
        cases hn : env.navOk with
        | false =>
          rw [prepInsert_nav_fail _ _ _ _ hc hn]
          simp
        | true =>
          rw [prepInsert_ok _ _ _ _ hc hn]
          intro _
          show (mapSet (s.sessions.eraseP (fun p => p.1 == oid)) id
              { pageId := s.nextPageId, siteMap := sm, lastActivity := env.now
                currentUrl := normalizeUrl sm.url }).length = s.sessions.length
          rw [mapSet_not_mem_eq _ id _ f2, List.length_append]
          have hpredO : (fun p : String × SessionM => p.1 == oid) (oid, sessO) = true := by
            simp
          have hlen := @List.length_eraseP_add_one (String × SessionM)
            (fun p => p.1 == oid) s.sessions (oid, sessO) hmemO hpredO
          simp only [List.length_cons, List.length_nil]
          omega

/-- C1 (counterexample to the claim as stated): `prepareSession` called
while the store is at capacity (50 entries) for an id that is already
present replaces that id's own entry and evicts nothing — the unique
minimal-`lastActivity` entry `"1"` is still present afterwards, although
the claim requires it to be the one evicted. -/
theorem capacity_eviction_counterexample :
    fullStoreReplace.sessions.length = 50
    ∧ (∀ p ∈ fullStoreReplace.sessions, p.1 = "1" ∨ 2 ≤ p.2.lastActivity)
    ∧ lookupSession fullStoreReplace "1" = some ⟨1, emptySite, 1, ""⟩
    ∧ (prepareSession fullStoreReplace "0" emptySite ⟨true, true, 500⟩).1 = true
    ∧ (lookupSession
        (prepareSession fullStoreReplace "0" emptySite ⟨true, true, 500⟩).2 "1").isSome
        = true := by
  decide

theorem session_store_capacity_witness :
    lookupSession (prepareSession fullStoreFresh "newsite" emptySite ⟨true, true, 7⟩).2 "0"
      = none :=
  (session_store_capacity.2 fullStoreFresh "newsite" emptySite ⟨true, true, 7⟩ "0" 1
    (by decide) (by decide) (by decide) rfl (by decide)).1

/-- C10: `prepareSession` is not atomic on failure — when a session exists
for the id and context creation or navigation fails (after the initial
close has run), the call returns `false` and the id is left with no session
at all. -/
theorem prepare_failure_drops_session :
    ∀ (s : ManagerState) (id : String) (sm : SiteMap) (env : PrepEnv),
      UniqueKeys s.sessions →
      (lookupSession s id).isSome = true →
      s.isReady = true →
      (env.ctxOk = false ∨ env.navOk = false) →
      (prepareSession s id sm env).1 = false
      ∧ lookupSession (prepareSession s id sm env).2 id = none := by
  intro s id sm env hU hsome hready hfail
  rw [prepareSession_ready_reduce s id sm env hready]
  have h2 : (if MAX_SESSIONS ≤ (closeSession s id).sessions.length then
        evictOldest (closeSession s id)
      else closeSession s id).sessions.find? (fun p => p.1 == id) = none := by
    have hc : (closeSession s id).sessions.find? (fun p => p.1 == id) = none :=
      find?_eraseP_self hU
    by_cases hcap : MAX_SESSIONS ≤ (closeSession s id).sessions.length
    · rw [if_pos hcap]
      unfold evictOldest
      cases ho : oldestEntry (closeSession s id).sessions with
      | none => exact hc
      | some pr =>
        obtain ⟨oid2, ot2⟩ := pr
        exact find?_sublist_none (List.eraseP_sublist _) hc
    · rw [if_neg hcap]
      exact hc
  rcases hfail with hf | hf
  · rw [prepInsert_ctx_fail _ _ _ _ hf]
    exact ⟨rfl, by simp [lookupSession, h2]⟩
  · cases hc : env.ctxOk with
    | false =>
      rw [prepInsert_ctx_fail _ _ _ _ hc]
      exact ⟨rfl, by simp [lookupSession, h2]⟩
    | true =>
      rw [prepInsert_nav_fail _ _ _ _ hc hf]
      exact ⟨rfl, by simp [lookupSession, h2]⟩

theorem prepare_failure_drops_session_witness :
    (prepareSession stSingleA "a" emptySite ⟨true, false, 99⟩).1 = false
    ∧ lookupSession (prepareSession stSingleA "a" emptySite ⟨true, false, 99⟩).2 "a" = none :=
  prepare_failure_drops_session stSingleA "a" emptySite ⟨true, false, 99⟩
    (by decide) (by decide) rfl (Or.inr rfl)

/-- C2 (code bug, evaluated at the failing input): after a failed liveness
probe, `execute` recreates the session — the store ends up holding the
fresh page 2 — but the matched action is executed against the stale page 1
captured before the recreation, because the local `session` binding is
never refreshed; when the recreation itself fails, `execute` does return a
failure result without running any action. -/
theorem execute_targets_stale_page :
    (execute stRecover ⟨"a", [], none⟩ envRecover).1.success = true
    ∧ (execute stRecover ⟨"a", [], none⟩ envRecover).1.usedPageId = some 1
    ∧ ((lookupSession (execute stRecover ⟨"a", [], none⟩ envRecover).2 "a").map
        (fun sess => sess.pageId)) = some 2
    ∧ ¬ ((execute stRecover ⟨"a", [], none⟩ envRecover).1.usedPageId
        = (lookupSession (execute stRecover ⟨"a", [], none⟩ envRecover).2 "a").map
            (fun sess => sess.pageId))
    ∧ (execute stRecover ⟨"a", [], none⟩ envRecoverFail).1 =
        { success := false, message := "Грешка при възстановяване на сесията"
          observation := none, usedPageId := none } := by
  decide

end NeoWorker
